import Mathlib

/-!
Shallow embedding of `src/standalone/download-vsix.py` from the b-tools
repository.  Python strings are modelled as lists of characters, Python
exceptions as an explicit error type threaded through `Except`, and the
two external effects of the script — the marketplace HTTP response and
the filesystem facts about the output path — as explicit inputs.  The
outcome of the external library calls (`requests.get`, BeautifulSoup's
element search, `json.loads`) is represented by the fields of
`MarketplaceResponse`; everything the script itself computes is
translated directly from the source.
-/

set_option autoImplicit false

/-- Python strings, modelled as lists of characters. -/
abbrev PyStr := List Char

mutual

/-- JSON values as produced by `json.loads` on the text of the marker
element in `Extension.query_version`. -/
inductive Json where
  | null : Json
  | bool (b : Bool) : Json
  | num (n : Int) : Json
  | str (s : PyStr) : Json
  | arr (elements : JElems) : Json
  | obj (fields : JFields) : Json

/-- The element list of a JSON array. -/
inductive JElems where
  | nil : JElems
  | cons (head : Json) (tail : JElems) : JElems

/-- The key/value pairs of a JSON object (a Python dict). -/
inductive JFields where
  | nil : JFields
  | cons (key : PyStr) (value : Json) (rest : JFields) : JFields

end

deriving instance DecidableEq for Json

/-- Lookup in a dict built by `json.loads`: with duplicate keys the last
occurrence wins, matching Python's `json` module. -/
def jsonLookup (k : PyStr) : JFields → Option Json
  | JFields.nil => none
  | JFields.cons k' v rest =>
      match jsonLookup k rest with
      | some r => some r
      | none => if k' = k then some v else none

/-- The Python exception classes that the script (or the library calls it
makes) can raise on the paths modelled here. -/
inductive PyErrClass where
  | runtimeError
  | valueError
  | jsonDecodeError
  | keyError
  | typeError
  | attributeError
deriving DecidableEq

/-- A raised Python exception: its class together with the payload the
script attaches at the raise site. -/
inductive PyErr where
  | runtimeError (msg : PyStr)
  | valueError (msg : PyStr)
  | jsonDecodeError
  | keyError (key : PyStr)
  | typeError
  | attributeError
deriving DecidableEq

/-- The exception class of a raised exception; two exceptions are
separately catchable in Python exactly when their classes differ. -/
def PyErr.cls : PyErr → PyErrClass
  | PyErr.runtimeError _ => PyErrClass.runtimeError
  | PyErr.valueError _ => PyErrClass.valueError
  | PyErr.jsonDecodeError => PyErrClass.jsonDecodeError
  | PyErr.keyError _ => PyErrClass.keyError
  | PyErr.typeError => PyErrClass.typeError
  | PyErr.attributeError => PyErrClass.attributeError

/-- Python truthiness of a JSON-derived value. -/
def Json.truthy : Json → Bool
  | Json.null => false
  | Json.bool b => b
  | Json.num n => n != 0
  | Json.str s => !s.isEmpty
  | Json.arr JElems.nil => false
  | Json.arr (JElems.cons _ _) => true
  | Json.obj JFields.nil => false
  | Json.obj (JFields.cons _ _ _) => true

/-- Python truthiness of the `version` field, which holds either `None`
or a JSON-derived value (initially the empty string). -/
def truthyOpt : Option Json → Bool
  | none => false
  | some j => j.truthy

/-- The apostrophe character used by Python's `repr` for strings. -/
def quoteChar : Char := Char.ofNat 39

mutual

/-- Python `repr` of a JSON-derived value, used when such a value is
interpolated into an f-string. -/
def Json.pyRepr : Json → PyStr
  | Json.null => "None".toList
  | Json.bool true => "True".toList
  | Json.bool false => "False".toList
  | Json.num n => (toString n).toList
  | Json.str s => quoteChar :: (s ++ [quoteChar])
  | Json.arr es => '[' :: (JElems.reprElems es ++ [']'])
  | Json.obj fs => "\x7b".toList ++ (JFields.reprFields fs ++ "\x7d".toList)

/-- `repr` of the elements of a list, comma separated. -/
def JElems.reprElems : JElems → PyStr
  | JElems.nil => []
  | JElems.cons h JElems.nil => Json.pyRepr h
  | JElems.cons h t => Json.pyRepr h ++ ", ".toList ++ JElems.reprElems t

/-- `repr` of the items of a dict, comma separated. -/
def JFields.reprFields : JFields → PyStr
  | JFields.nil => []
  | JFields.cons k v JFields.nil =>
      quoteChar :: (k ++ [quoteChar]) ++ ": ".toList ++ Json.pyRepr v
  | JFields.cons k v rest =>
      quoteChar :: (k ++ [quoteChar]) ++ ": ".toList ++ Json.pyRepr v ++ ", ".toList
        ++ JFields.reprFields rest

end

/-- Python `str` of a JSON-derived value: the value itself for strings,
`repr` otherwise (which agrees with `str` for the remaining cases). -/
def Json.pyStr (j : Json) : PyStr :=
  match j with
  | Json.str s => s
  | _ => j.pyRepr

/-- Python `str` of the `version` field when interpolated into an
f-string (`str(None)` is `"None"`). -/
def pyStrOfValue : Option Json → PyStr
  | none => "None".toList
  | some j => j.pyStr

/-- The `Extension` dataclass.  `version` has `default_factory=str`
(the empty string); `query_version` later stores into it whatever
`resources.get("Version")` returned, which is `None` when the key is
absent, so the field is modelled as an optional JSON-derived value. -/
structure Extension where
  name : PyStr
  publisher : PyStr
  version : Option Json := some (Json.str [])
deriving DecidableEq

/-- The marketplace item-URL literal used both by the
`Extension.marketplace_url` f-string and by `Extension.from_url`. -/
def itemUrlBase : PyStr := "https://marketplace.visualstudio.com/items?itemName=".toList

/-- `Extension.marketplace_url`. -/
def marketplace_url (self : Extension) : PyStr :=
  itemUrlBase ++ self.publisher ++ '.' :: self.name

/-- The VSIX download URL f-string of `Extension.vsix_url`, as a function
of the three interpolated values. -/
def vsixUrlTemplate (publisher nm version : PyStr) : PyStr :=
  "https://marketplace.visualstudio.com/_apis/public/gallery/publishers/".toList
    ++ publisher ++ "/vsextensions/".toList ++ nm ++ "/".toList ++ version
    ++ "/vspackage".toList

/-- The URL string `Extension.vsix_url` returns once `version` is set. -/
def vsixUrlString (self : Extension) : PyStr :=
  vsixUrlTemplate self.publisher self.name (pyStrOfValue self.version)

/-- `Extension.default_filename`. -/
def default_filename (self : Extension) : PyStr :=
  self.publisher ++ '.' :: self.name ++ '-' :: (pyStrOfValue self.version ++ ".vsix".toList)

/-- Python `str.partition` with a one-character separator: split at the
first occurrence, returning `(head, separator-if-found, tail)`. -/
def partitionChar (sep : Char) : PyStr → PyStr × PyStr × PyStr
  | [] => ([], [], [])
  | c :: rest =>
      if c = sep then ([], [sep], rest)
      else
        let p := partitionChar sep rest
        (c :: p.1, p.2.1, p.2.2)

/-- Python `str.removeprefix`, as used in `Extension.from_url`. -/
def removeStart (pre s : PyStr) : PyStr :=
  if pre.isPrefixOf s then s.drop pre.length else s

/-- `Extension.from_name`. -/
def from_name (extension_spec : PyStr) : Extension :=
  let q := partitionChar '@' extension_spec
  let p := partitionChar '.' q.1
  { name := p.2.2, publisher := p.1, version := some (Json.str q.2.2) }

/-- The message of the `ValueError` raised by `Extension.from_url`. -/
def failedUrlMsg (url : PyStr) : PyStr := "Failed to understand URL: ".toList ++ url

/-- `Extension.from_url`: strip the marketplace prefix and split on the
first `.`; raise `ValueError` when the prefix does not match. -/
def from_url (url : PyStr) : Except PyErr Extension :=
  if itemUrlBase.isPrefixOf url then
    let ext := removeStart itemUrlBase url
    let p := partitionChar '.' ext
    Except.ok { name := p.2.2, publisher := p.1 }
  else
    Except.error (PyErr.valueError (failedUrlMsg url))

/-- The outcome of `json.loads` on the marker element's text. -/
inductive JsonParse where
  | malformed : JsonParse
  | value (v : Json) : JsonParse

/-- The outcome of the `requests.get` that `query_version` issues,
together with the result of the library calls the script applies to the
body: `ok` is the response's truthiness (status below 400), `reason` its
reason phrase, and `marker` is `None` when BeautifulSoup finds no
`script` element of class `jiContent`, otherwise the `json.loads`
outcome on that element's text. -/
structure MarketplaceResponse where
  ok : Bool
  reason : PyStr
  marker : Option JsonParse

/-- The message of the `RuntimeError` raised when the request fails. -/
def requestFailedMsg (url reason : PyStr) : PyStr :=
  "Request to ".toList ++ url ++ " failed (".toList ++ reason ++ ")".toList

/-- The message of the `RuntimeError` raised when no marker element is
found. -/
def noJiContentMsg : PyStr :=
  "Could not find `jiContent` when querying marketplace endpoint.".toList

/-- Python `info["Resources"]`: `KeyError` when the key is absent,
`TypeError` when `info` is not a dict. -/
def getItem (j : Json) (k : PyStr) : Except PyErr Json :=
  match j with
  | Json.obj fields =>
      match jsonLookup k fields with
      | some v => Except.ok v
      | none => Except.error (PyErr.keyError k)
  | _ => Except.error PyErr.typeError

/-- Python `resources.get(key)`: `None` when the key is absent,
`AttributeError` when `resources` is not a dict. -/
def dictGet (j : Json) (k : PyStr) : Except PyErr (Option Json) :=
  match j with
  | Json.obj fields => Except.ok (jsonLookup k fields)
  | _ => Except.error PyErr.attributeError

/-- Keys read from the metadata JSON. -/
def resourcesKey : PyStr := "Resources".toList

/-- The `PublisherName` key. -/
def publisherNameKey : PyStr := "PublisherName".toList

/-- The `ExtensionName` key. -/
def extensionNameKey : PyStr := "ExtensionName".toList

/-- The `Version` key. -/
def versionKey : PyStr := "Version".toList

/-- `Extension.query_version`.  The network request is modelled by the
`resp` input; the method returns `self.version` after storing the
fetched value into it, so the model returns the value together with the
updated state.  The `update` parameter is part of the source signature
(default `True`). -/
def query_version (resp : MarketplaceResponse) (self : Extension) (update : Bool) :
    Except PyErr (Option Json × Extension) :=
  if !resp.ok then
    Except.error (PyErr.runtimeError (requestFailedMsg (marketplace_url self) resp.reason))
  else
    match resp.marker with
    | none => Except.error (PyErr.runtimeError noJiContentMsg)
    | some JsonParse.malformed => Except.error PyErr.jsonDecodeError
    | some (JsonParse.value info) =>
        match getItem info resourcesKey with
        | Except.error e => Except.error e
        | Except.ok resources =>
            match dictGet resources publisherNameKey with
            | Except.error e => Except.error e
            | Except.ok _publisher =>
                match dictGet resources extensionNameKey with
                | Except.error e => Except.error e
                | Except.ok _extension =>
                    match dictGet resources versionKey with
                    | Except.error e => Except.error e
                    | Except.ok version =>
                        let self' := { self with version := version }
                        Except.ok (self'.version, self')

/-- `Extension.vsix_url`: when `version` is falsy the property first
calls `query_version()` (one metadata request, counted by the second
component) and only then builds the URL. -/
def vsix_url (resp : MarketplaceResponse) (self : Extension) :
    Except PyErr (PyStr × Extension) × Nat :=
  if truthyOpt self.version then
    (Except.ok (vsixUrlString self, self), 0)
  else
    match query_version resp self true with
    | Except.error e => (Except.error e, 1)
    | Except.ok (_, s) => (Except.ok (vsixUrlString s, s), 1)

/-- What the `cli` function knows about `args.output`: the string form
of the path and the two `pathlib` facts it queries. -/
structure PyPath where
  path : PyStr
  isDir : Bool
  parentIsDir : Bool

/-- `Path` division `args.output / ext.default_filename` on a
normalized path string. -/
def pathJoin (a b : PyStr) : PyStr :=
  if a = "/".toList then a ++ b else a ++ '/' :: b

/-- The message of the `ValueError` raised for an invalid output path. -/
def invalidOutputMsg (p : PyStr) : PyStr := "Invalid output path: ".toList ++ p

/-- What one `cli` run reports: the printed VSIX URL in print mode, or
the download URL and destination in download mode. -/
structure CliSummary where
  printedUrl : Option PyStr := none
  downloadUrl : Option PyStr := none
  savedTo : Option PyStr := none
deriving DecidableEq

/-- The observable outcome of a `cli` run: its result (or raised
exception) plus how many metadata requests and how many package
download requests were issued. -/
structure CliOutcome where
  result : Except PyErr CliSummary
  metadataRequests : Nat
  downloadRequests : Nat

/-- Lines 145-154 of the script: parse the input (URL form first, with
the `except` falling back to the name form), then query the marketplace
when the parsed version is falsy. -/
def resolveStage (input : PyStr) (resp : MarketplaceResponse) :
    Except PyErr Extension × Nat :=
  let ext :=
    match from_url input with
    | Except.ok e => e
    | Except.error _ => from_name input
  if truthyOpt ext.version then
    (Except.ok ext, 0)
  else
    match query_version resp ext true with
    | Except.error e => (Except.error e, 1)
    | Except.ok (_, e') => (Except.ok e', 1)

/-- Lines 169-176 of the script: the `vsix_url` property is evaluated
twice (once for `download_url`, once inside the print f-string), then
one streamed GET downloads the package to `dest`. -/
def cliDownload (ext : Extension) (dest : PyStr) (resp : MarketplaceResponse)
    (m : Nat) : CliOutcome :=
  match vsix_url resp ext with
  | (Except.error e, k) => ⟨Except.error e, m + k, 0⟩
  | (Except.ok (download_url, ext'), k) =>
      match vsix_url resp ext' with
      | (Except.error e, k2) => ⟨Except.error e, m + k + k2, 0⟩
      | (Except.ok _, k2) =>
          ⟨Except.ok { downloadUrl := some download_url, savedTo := some dest },
            m + k + k2, 1⟩

/-- Lines 156-176 of the script: print mode evaluates `vsix_url` once
and prints it; download mode first resolves the destination (existing
directory, else existing parent, else `ValueError`) and then downloads. -/
def cliAfterResolve (ext : Extension) (download : Bool) (output : PyPath)
    (resp : MarketplaceResponse) (m : Nat) : CliOutcome :=
  if download = false then
    match vsix_url resp ext with
    | (Except.error e, k) => ⟨Except.error e, m + k, 0⟩
    | (Except.ok (url, _), k) => ⟨Except.ok { printedUrl := some url }, m + k, 0⟩
  else if output.isDir then
    cliDownload ext (pathJoin output.path (default_filename ext)) resp m
  else if output.parentIsDir then
    cliDownload ext output.path resp m
  else
    ⟨Except.error (PyErr.valueError (invalidOutputMsg output.path)), m, 0⟩

/-- The `cli` pipeline of the script (argument parsing and logging,
which the spec excludes, are not modelled). -/
def cli (input : PyStr) (download : Bool) (output : PyPath)
    (resp : MarketplaceResponse) : CliOutcome :=
  match resolveStage input resp with
  | (Except.error e, m) => ⟨Except.error e, m, 0⟩
  | (Except.ok ext, m) => cliAfterResolve ext download output resp m

/-- A concrete identity with the version still absent (the dataclass
default, the empty string). -/
def sampleExt : Extension :=
  { name := "widget".toList, publisher := "acme".toList, version := some (Json.str []) }

/-- A successful metadata response whose marker JSON carries
`Resources.Version = "1.2.3"`. -/
def respGood : MarketplaceResponse :=
  { ok := true, reason := [],
    marker := some (JsonParse.value (Json.obj (JFields.cons resourcesKey
      (Json.obj (JFields.cons versionKey (Json.str "1.2.3".toList) JFields.nil))
      JFields.nil))) }

/-- A failed request (falsy response). -/
def respNetFail : MarketplaceResponse :=
  { ok := false, reason := "Not Found".toList, marker := none }

/-- A successful response whose HTML contains no marker element. -/
def respNoMarker : MarketplaceResponse :=
  { ok := true, reason := [], marker := none }

/-- A successful response whose marker text is not valid JSON. -/
def respMalformed : MarketplaceResponse :=
  { ok := true, reason := [], marker := some JsonParse.malformed }

/-- A successful response whose marker JSON is an object without a
`Resources` key. -/
def respEmptyObj : MarketplaceResponse :=
  { ok := true, reason := [], marker := some (JsonParse.value (Json.obj JFields.nil)) }

/-- A successful response whose `Resources` object has no `Version`
key. -/
def respNoVersion : MarketplaceResponse :=
  { ok := true, reason := [],
    marker := some (JsonParse.value (Json.obj (JFields.cons resourcesKey
      (Json.obj JFields.nil) JFields.nil))) }

/-- An output path that is neither an existing directory nor has an
existing parent. -/
def badPath : PyPath :=
  { path := "/no/such/dir/out.vsix".toList, isDir := false, parentIsDir := false }

/-- An output path whose parent exists. -/
def filePath : PyPath :=
  { path := "/tmp/out.vsix".toList, isDir := false, parentIsDir := true }

/-- The identity produced from `sampleExt` by a successful resolution
against `respGood`. -/
def resolvedExt : Extension :=
  { name := "widget".toList, publisher := "acme".toList,
    version := some (Json.str "1.2.3".toList) }

/-- The identity produced from `sampleExt` by a resolution whose
`Resources` object has no `Version` key. -/
def noneVersionExt : Extension :=
  { name := "widget".toList, publisher := "acme".toList, version := none }

/-- The exception class of the error of a `query_version` outcome, if
any. -/
def errClassOf : Except PyErr (Option Json × Extension) → Option PyErrClass
  | Except.error e => some e.cls
  | Except.ok _ => none

lemma isPrefixOf_append_self (l t : PyStr) : l.isPrefixOf (l ++ t) = true := by
  induction l with
  | nil => cases t <;> rfl
  | cons a as ih => simp [List.isPrefixOf, ih]

lemma eq_append_of_isPrefixOf {l r : PyStr} (h : l.isPrefixOf r = true) :
    ∃ t, r = l ++ t := by
  induction l generalizing r with
  | nil => exact ⟨r, rfl⟩
  | cons a as ih =>
    cases r with
    | nil => simp [List.isPrefixOf] at h
    | cons b bs =>
      have h' : (a == b && as.isPrefixOf bs) = true := h
      have hab : a = b := by
        have := (Bool.and_eq_true _ _).mp h'
        exact eq_of_beq this.1
      obtain ⟨t, ht⟩ := ih ((Bool.and_eq_true _ _).mp h').2
      exact ⟨t, by rw [ht, hab]; rfl⟩

lemma mem_beq_false {c : Char} {l : PyStr} (h : c ∉ l) :
    ∀ u ∈ l, (u == c) = false := by
  intro u hu
  have : ¬ u = c := fun e => h (e ▸ hu)
  simpa using this

lemma partitionChar_sep_split (sep : Char) (l r : PyStr) (h : sep ∉ l) :
    partitionChar sep (l ++ sep :: r) = (l, [sep], r) := by
  induction l with
  | nil => simp [partitionChar]
  | cons c cs ih =>
    have hc : ¬ c = sep := fun e => h (List.mem_cons.mpr (Or.inl e.symm))
    have h' : sep ∉ cs := fun hm => h (List.mem_cons.mpr (Or.inr hm))
    simp [partitionChar, hc, ih h']

lemma partitionChar_no_sep (sep : Char) (l : PyStr) (h : sep ∉ l) :
    partitionChar sep l = (l, [], []) := by
  induction l with
  | nil => simp [partitionChar]
  | cons c cs ih =>
    have hc : ¬ c = sep := fun e => h (List.mem_cons.mpr (Or.inl e.symm))
    have h' : sep ∉ cs := fun hm => h (List.mem_cons.mpr (Or.inr hm))
    simp [partitionChar, hc, ih h']

lemma removeStart_append (pre t : PyStr) : removeStart pre (pre ++ t) = t := by
  simp [removeStart, isPrefixOf_append_self, List.drop_left]

lemma first_occurrence_unique (p : Char → Bool) :
    ∀ (a c b d : PyStr) (x y : Char),
      (∀ u ∈ a, p u = false) → (∀ u ∈ c, p u = false) →
      p x = true → p y = true →
      a ++ x :: b = c ++ y :: d → a = c ∧ x = y ∧ b = d := by
  intro a
  induction a with
  | nil =>
    intro c b d x y _ hc hx _ he
    cases c with
    | nil =>
      simp only [List.nil_append] at he
      injection he with h1 h2
      exact ⟨rfl, h1, h2⟩
    | cons v cs =>
      simp only [List.nil_append, List.cons_append] at he
      injection he with h1 h2
      have hv := hc v (List.mem_cons_self v cs)
      rw [h1] at hx
      rw [hx] at hv
      exact absurd hv (by simp)
  | cons u as ih =>
    intro c b d x y ha hc hx hy he
    cases c with
    | nil =>
      simp only [List.cons_append, List.nil_append] at he
      injection he with h1 h2
      have hu := ha u (List.mem_cons_self u as)
      rw [h1, hy] at hu
      exact absurd hu (by simp)
    | cons v cs =>
      simp only [List.cons_append] at he
      injection he with h1 h2
      obtain ⟨e1, e2, e3⟩ := ih cs b d x y
        (fun w hw => ha w (List.mem_cons_of_mem _ hw))
        (fun w hw => hc w (List.mem_cons_of_mem _ hw)) hx hy h2
      exact ⟨by rw [h1, e1], e2, e3⟩

/-- The item-URL literal, split at its first two dots. -/
def basePartA : PyStr := "https://marketplace".toList

/-- The segment of the item-URL literal between its first two dots. -/
def basePartB : PyStr := "visualstudio".toList

/-- The segment of the item-URL literal after its second dot. -/
def basePartC : PyStr := "com/items?itemName=".toList

lemma itemUrlBase_decomp :
    itemUrlBase = basePartA ++ '.' :: (basePartB ++ '.' :: basePartC) := by decide

lemma at_not_mem_compact {pub nm : PyStr} (hpa : '@' ∉ pub) (hna : '@' ∉ nm) :
    '@' ∉ (pub ++ '.' :: nm) := by
  intro hm
  rcases List.mem_append.mp hm with h | h
  · exact hpa h
  · rcases List.mem_cons.mp h with h | h
    · exact absurd h (by decide)
    · exact hna h

lemma compactSpec_not_url (pub nm ver : PyStr)
    (hpd : '.' ∉ pub) (hpa : '@' ∉ pub) (hnd : '.' ∉ nm) (hna : '@' ∉ nm) :
    itemUrlBase.isPrefixOf ((pub ++ '.' :: nm) ++ '@' :: ver) = false := by
  cases hb : itemUrlBase.isPrefixOf ((pub ++ '.' :: nm) ++ '@' :: ver) with
  | false => rfl
  | true =>
    exfalso
    obtain ⟨t, ht⟩ := eq_append_of_isPrefixOf hb
    rw [itemUrlBase_decomp] at ht
    have ht' : pub ++ '.' :: (nm ++ '@' :: ver)
        = basePartA ++ '.' :: ((basePartB ++ '.' :: basePartC) ++ t) := by
      simpa [List.append_assoc] using ht
    have h1 := first_occurrence_unique (fun u => u == '.') pub basePartA
      (nm ++ '@' :: ver) ((basePartB ++ '.' :: basePartC) ++ t) '.' '.'
      (mem_beq_false hpd) (by decide) (by decide) (by decide) ht'
    have h2 : nm ++ '@' :: ver = basePartB ++ '.' :: (basePartC ++ t) := by
      simpa [List.append_assoc] using h1.2.2
    have hnboth : ∀ u ∈ nm, (u == '.' || u == '@') = false := by
      intro u hu
      rw [mem_beq_false hnd u hu, mem_beq_false hna u hu]
      rfl
    have h3 := first_occurrence_unique (fun u => u == '.' || u == '@') nm basePartB
      ver (basePartC ++ t) '@' '.' hnboth (by decide) (by decide) (by decide) h2
    exact absurd h3.2.1 (by decide)

lemma from_name_compact (pub nm ver : PyStr)
    (hpd : '.' ∉ pub) (hpa : '@' ∉ pub) (hna : '@' ∉ nm) :
    from_name ((pub ++ '.' :: nm) ++ '@' :: ver)
      = { name := nm, publisher := pub, version := some (Json.str ver) } := by
  have h1 := at_not_mem_compact hpa hna
  have hq := partitionChar_sep_split '@' (pub ++ '.' :: nm) ver h1
  have hp := partitionChar_sep_split '.' pub nm hpd
  show ({ name := (partitionChar '.' (partitionChar '@' ((pub ++ '.' :: nm) ++ '@' :: ver)).1).2.2,
          publisher := (partitionChar '.' (partitionChar '@' ((pub ++ '.' :: nm) ++ '@' :: ver)).1).1,
          version := some (Json.str (partitionChar '@' ((pub ++ '.' :: nm) ++ '@' :: ver)).2.2) }
        : Extension) = _
  rw [hq]
  show ({ name := (partitionChar '.' (pub ++ '.' :: nm)).2.2,
          publisher := (partitionChar '.' (pub ++ '.' :: nm)).1,
          version := some (Json.str ver) } : Extension) = _
  rw [hp]

lemma from_name_no_at (pub nm : PyStr)
    (hpd : '.' ∉ pub) (hpa : '@' ∉ pub) (hna : '@' ∉ nm) :
    from_name (pub ++ '.' :: nm)
      = { name := nm, publisher := pub, version := some (Json.str []) } := by
  have h1 := at_not_mem_compact hpa hna
  have hq := partitionChar_no_sep '@' (pub ++ '.' :: nm) h1
  have hp := partitionChar_sep_split '.' pub nm hpd
  show ({ name := (partitionChar '.' (partitionChar '@' (pub ++ '.' :: nm)).1).2.2,
          publisher := (partitionChar '.' (partitionChar '@' (pub ++ '.' :: nm)).1).1,
          version := some (Json.str (partitionChar '@' (pub ++ '.' :: nm)).2.2) }
        : Extension) = _
  rw [hq]
  show ({ name := (partitionChar '.' (pub ++ '.' :: nm)).2.2,
          publisher := (partitionChar '.' (pub ++ '.' :: nm)).1,
          version := some (Json.str []) } : Extension) = _
  rw [hp]

lemma query_version_ok_state (resp : MarketplaceResponse) (self : Extension) (u : Bool)
    (v : Option Json) (s : Extension) (h : query_version resp self u = Except.ok (v, s)) :
    s = { self with version := v } := by
  unfold query_version at h
  split at h
  · exact absurd h (by simp)
  · split at h
    · exact absurd h (by simp)
    · exact absurd h (by simp)
    · split at h
      · exact absurd h (by simp)
      · split at h
        · exact absurd h (by simp)
        · split at h
          · exact absurd h (by simp)
          · split at h
            · exact absurd h (by simp)
            · injection h with h'
              injection h' with hv hs
              rw [← hs, ← hv]

lemma vsix_url_truthy (resp : MarketplaceResponse) (e : Extension)
    (h : truthyOpt e.version = true) :
    vsix_url resp e = (Except.ok (vsixUrlString e, e), 0) := by
  simp [vsix_url, h]

lemma cliDownload_resolved (e : Extension) (dest : PyStr) (resp : MarketplaceResponse)
    (m : Nat) (h : truthyOpt e.version = true) :
    cliDownload e dest resp m
      = ⟨Except.ok { downloadUrl := some (vsixUrlString e), savedTo := some dest }, m, 1⟩ := by
  simp [cliDownload, vsix_url_truthy resp e h]

lemma cliAfterResolve_meta (e : Extension) (dl : Bool) (output : PyPath)
    (resp : MarketplaceResponse) (h : truthyOpt e.version = true) :
    (cliAfterResolve e dl output resp 0).metadataRequests = 0 := by
  cases dl with
  | false => simp [cliAfterResolve, vsix_url_truthy resp e h]
  | true =>
    by_cases h1 : output.isDir
    · simp [cliAfterResolve, h1, cliDownload_resolved _ _ _ _ h]
    · by_cases h2 : output.parentIsDir
      · simp [cliAfterResolve, h1, h2, cliDownload_resolved _ _ _ _ h]
      · simp [cliAfterResolve, h1, h2]

lemma from_url_compact_error (pub nm ver : PyStr)
    (hpd : '.' ∉ pub) (hpa : '@' ∉ pub) (hnd : '.' ∉ nm) (hna : '@' ∉ nm) :
    from_url ((pub ++ '.' :: nm) ++ '@' :: ver)
      = Except.error (PyErr.valueError (failedUrlMsg ((pub ++ '.' :: nm) ++ '@' :: ver))) := by
  have hnp := compactSpec_not_url pub nm ver hpd hpa hnd hna
  unfold from_url
  rw [hnp]
  rfl

lemma resolveStage_compact (pub nm ver : PyStr) (resp : MarketplaceResponse)
    (hpd : '.' ∉ pub) (hpa : '@' ∉ pub) (hnd : '.' ∉ nm) (hna : '@' ∉ nm)
    (hver : ver ≠ []) :
    resolveStage ((pub ++ '.' :: nm) ++ '@' :: ver) resp
      = (Except.ok { name := nm, publisher := pub, version := some (Json.str ver) }, 0) := by
  cases ver with
  | nil => exact absurd rfl hver
  | cons v0 vr =>
    have hurl := from_url_compact_error pub nm (v0 :: vr) hpd hpa hnd hna
    have hfn := from_name_compact pub nm (v0 :: vr) hpd hpa hna
    unfold resolveStage
    rw [hurl, hfn]
    rfl

lemma cliAfterResolve_print (e : Extension) (output : PyPath)
    (resp : MarketplaceResponse) (m : Nat) (h : truthyOpt e.version = true) :
    cliAfterResolve e false output resp m
      = ⟨Except.ok { printedUrl := some (vsixUrlString e) }, m, 0⟩ := by
  simp [cliAfterResolve, vsix_url_truthy resp e h]

/-- Claim C8: for every valid compact spec `publisher.name@version`
(publisher and name non-empty with no embedded `.` or `@`, version
non-empty), `from_name` yields exactly the identity
`(publisher, name, version)`; and `from_name` applied to
`publisher.name` with no `@` yields the same publisher and name with
version absent (the falsy empty string). -/
theorem from_name_parses_compact_spec (pub nm ver : PyStr)
    (hp0 : pub ≠ []) (hn0 : nm ≠ [])
    (hpd : '.' ∉ pub) (hpa : '@' ∉ pub) (hnd : '.' ∉ nm) (hna : '@' ∉ nm)
    (hver : ver ≠ []) :
    from_name ((pub ++ '.' :: nm) ++ '@' :: ver)
      = { name := nm, publisher := pub, version := some (Json.str ver) }
    ∧ from_name (pub ++ '.' :: nm)
      = { name := nm, publisher := pub, version := some (Json.str []) } :=
  ⟨from_name_compact pub nm ver hpd hpa hna, from_name_no_at pub nm hpd hpa hna⟩

/-- Witness for C8 at `acme.widget@9.9.9` and `acme.widget`. -/
theorem from_name_parses_compact_spec_w :
    from_name (("acme".toList ++ '.' :: "widget".toList) ++ '@' :: "9.9.9".toList)
      = { name := "widget".toList, publisher := "acme".toList,
          version := some (Json.str "9.9.9".toList) }
    ∧ from_name ("acme".toList ++ '.' :: "widget".toList)
      = { name := "widget".toList, publisher := "acme".toList,
          version := some (Json.str []) } :=
  from_name_parses_compact_spec "acme".toList "widget".toList "9.9.9".toList
    (by decide) (by decide) (by decide) (by decide) (by decide) (by decide) (by decide)

/-- Claim C9: for every valid marketplace URL
`<base>/items?itemName=publisher.name`, `from_url` yields the same
identity as `from_name` on the compact spec `publisher.name`, with
version absent. -/
theorem from_url_matches_from_name (pub nm : PyStr)
    (hp0 : pub ≠ []) (hn0 : nm ≠ [])
    (hpd : '.' ∉ pub) (hpa : '@' ∉ pub) (hnd : '.' ∉ nm) (hna : '@' ∉ nm) :
    from_url (itemUrlBase ++ (pub ++ '.' :: nm))
      = Except.ok (from_name (pub ++ '.' :: nm))
    ∧ (from_name (pub ++ '.' :: nm)).version = some (Json.str []) := by
  have hfn := from_name_no_at pub nm hpd hpa hna
  constructor
  · unfold from_url
    rw [isPrefixOf_append_self, removeStart_append, hfn]
    show Except.ok
        ({ name := (partitionChar '.' (pub ++ '.' :: nm)).2.2,
           publisher := (partitionChar '.' (pub ++ '.' :: nm)).1,
           version := some (Json.str []) } : Extension) = _
    rw [partitionChar_sep_split '.' pub nm hpd]
  · rw [hfn]

/-- Witness for C9 at `acme.widget`. -/
theorem from_url_matches_from_name_w :
    from_url (itemUrlBase ++ ("acme".toList ++ '.' :: "widget".toList))
      = Except.ok (from_name ("acme".toList ++ '.' :: "widget".toList))
    ∧ (from_name ("acme".toList ++ '.' :: "widget".toList)).version
      = some (Json.str []) :=
  from_url_matches_from_name "acme".toList "widget".toList
    (by decide) (by decide) (by decide) (by decide) (by decide) (by decide)

/-- Counterexample for C2: on a URL whose prefix matches but with no `.`
after it, `from_url` raises nothing and returns an identity (with an
empty name), contradicting the claimed `MalformedReferenceError`. -/
theorem from_url_missing_dot_cex :
    from_url (itemUrlBase ++ "foobar".toList)
      = Except.ok
          { name := [], publisher := "foobar".toList, version := some (Json.str []) } := by
  rfl

/-- Claim C2 (amended): when the marketplace prefix matches but no `.`
follows, `from_url` returns an identity with the whole remainder as
publisher and an empty name; when the part of a compact spec before the
first `@` contains no `.`, `from_name` likewise returns an identity
with an empty name.  No error is raised in either case. -/
theorem parse_missing_dot_returns_empty_name (ext full ver : PyStr)
    (h1 : '.' ∉ ext) (h2 : '.' ∉ full) (h3 : '@' ∉ full) :
    from_url (itemUrlBase ++ ext)
      = Except.ok { name := [], publisher := ext, version := some (Json.str []) }
    ∧ from_name (full ++ '@' :: ver)
      = { name := [], publisher := full, version := some (Json.str ver) } := by
  constructor
  · unfold from_url
    rw [isPrefixOf_append_self, removeStart_append]
    show Except.ok
        ({ name := (partitionChar '.' ext).2.2,
           publisher := (partitionChar '.' ext).1,
           version := some (Json.str []) } : Extension) = _
    rw [partitionChar_no_sep '.' ext h1]
  · show ({ name := (partitionChar '.' (partitionChar '@' (full ++ '@' :: ver)).1).2.2,
            publisher := (partitionChar '.' (partitionChar '@' (full ++ '@' :: ver)).1).1,
            version := some (Json.str (partitionChar '@' (full ++ '@' :: ver)).2.2) }
          : Extension) = _
    rw [partitionChar_sep_split '@' full ver h3]
    show ({ name := (partitionChar '.' full).2.2,
            publisher := (partitionChar '.' full).1,
            version := some (Json.str ver) } : Extension) = _
    rw [partitionChar_no_sep '.' full h2]

/-- Witness for the amended C2 at `foobar` (URL form) and `acme@1.0`
(compact form). -/
theorem parse_missing_dot_returns_empty_name_w :
    from_url (itemUrlBase ++ "foobar".toList)
      = Except.ok
          { name := [], publisher := "foobar".toList, version := some (Json.str []) }
    ∧ from_name ("acme".toList ++ '@' :: "1.0".toList)
      = { name := [], publisher := "acme".toList,
          version := some (Json.str "1.0".toList) } :=
  parse_missing_dot_returns_empty_name "foobar".toList "acme".toList "1.0".toList
    (by decide) (by decide) (by decide)

/-- Claim C6: for every input `publisher.name@version` with a non-empty
version (publisher and name free of `.` and `@`), the `cli` pipeline
issues no metadata (detail page) request, and in print mode the package
URL it produces is built directly from the supplied version string. -/
theorem compact_spec_no_metadata_request (pub nm ver : PyStr) (dl : Bool)
    (output : PyPath) (resp : MarketplaceResponse)
    (hpd : '.' ∉ pub) (hpa : '@' ∉ pub) (hnd : '.' ∉ nm) (hna : '@' ∉ nm)
    (hver : ver ≠ []) :
    (cli ((pub ++ '.' :: nm) ++ '@' :: ver) dl output resp).metadataRequests = 0
    ∧ (cli ((pub ++ '.' :: nm) ++ '@' :: ver) false output resp).result
        = Except.ok { printedUrl := some (vsixUrlTemplate pub nm ver),
                      downloadUrl := none, savedTo := none } := by
  have hres := resolveStage_compact pub nm ver resp hpd hpa hnd hna hver
  have htr : truthyOpt (some (Json.str ver)) = true := by
    cases ver with
    | nil => exact absurd rfl hver
    | cons a l => rfl
  constructor
  · unfold cli
    rw [hres]
    exact cliAfterResolve_meta _ dl output resp htr
  · unfold cli
    rw [hres]
    show (cliAfterResolve { name := nm, publisher := pub, version := some (Json.str ver) }
        false output resp 0).result = _
    rw [cliAfterResolve_print _ output resp 0 htr]
    rfl

/-- Witness for C6 at `acme.widget@9.9.9` in download mode (first
conjunct) and print mode (second conjunct). -/
theorem compact_spec_no_metadata_request_w :
    (cli (("acme".toList ++ '.' :: "widget".toList) ++ '@' :: "9.9.9".toList)
        true filePath respNetFail).metadataRequests = 0
    ∧ (cli (("acme".toList ++ '.' :: "widget".toList) ++ '@' :: "9.9.9".toList)
        false filePath respNetFail).result
      = Except.ok { printedUrl := some (vsixUrlTemplate "acme".toList "widget".toList
          "9.9.9".toList), downloadUrl := none, savedTo := none } :=
  compact_spec_no_metadata_request "acme".toList "widget".toList "9.9.9".toList
    true filePath respNetFail (by decide) (by decide) (by decide) (by decide) (by decide)

/-- Claim C7: for every destination that neither names an existing
directory nor has an existing parent, a download-mode `cli` run issues
zero package download requests and does not succeed; when parsing and
version resolution succeed, the run fails precisely with the
`ValueError` for an invalid output path, raised before the download
request. -/
theorem invalid_destination_fails_before_download (input : PyStr) (output : PyPath)
    (resp : MarketplaceResponse)
    (h1 : output.isDir = false) (h2 : output.parentIsDir = false) :
    (cli input true output resp).downloadRequests = 0
    ∧ (∀ s, (cli input true output resp).result ≠ Except.ok s)
    ∧ (∀ ext m, resolveStage input resp = (Except.ok ext, m) →
        (cli input true output resp).result
          = Except.error (PyErr.valueError (invalidOutputMsg output.path))) := by
  have hbad : ∀ (e : Extension) (m : Nat),
      cliAfterResolve e true output resp m
        = ⟨Except.error (PyErr.valueError (invalidOutputMsg output.path)), m, 0⟩ := by
    intro e m
    simp [cliAfterResolve, h1, h2]
  rcases hr : resolveStage input resp with ⟨r, m⟩
  cases r with
  | error e =>
    refine ⟨?_, ?_, ?_⟩
    · unfold cli
      rw [hr]
    · intro s hc
      unfold cli at hc
      rw [hr] at hc
      simp at hc
    · intro ext m' hok
      exact absurd hok (by simp)
  | ok e =>
    refine ⟨?_, ?_, ?_⟩
    · unfold cli
      rw [hr]
      show (cliAfterResolve e true output resp m).downloadRequests = 0
      rw [hbad e m]
    · intro s hc
      unfold cli at hc
      rw [hr] at hc
      have hc' : (cliAfterResolve e true output resp m).result = Except.ok s := hc
      rw [hbad e m] at hc'
      simp at hc'
    · intro ext m' _
      unfold cli
      rw [hr]
      show (cliAfterResolve e true output resp m).result = _
      rw [hbad e m]

/-- Witness for C7: a resolved input `acme.widget@9.9.9` with an output
path whose parent does not exist. -/
theorem invalid_destination_fails_before_download_w :
    (cli (("acme".toList ++ '.' :: "widget".toList) ++ '@' :: "9.9.9".toList)
        true badPath respNetFail).downloadRequests = 0
    ∧ (cli (("acme".toList ++ '.' :: "widget".toList) ++ '@' :: "9.9.9".toList)
        true badPath respNetFail).result
      = Except.error (PyErr.valueError (invalidOutputMsg badPath.path)) := by
  have h := invalid_destination_fails_before_download
    (("acme".toList ++ '.' :: "widget".toList) ++ '@' :: "9.9.9".toList)
    badPath respNetFail rfl rfl
  refine ⟨h.1, h.2.2
    { name := "widget".toList, publisher := "acme".toList,
      version := some (Json.str "9.9.9".toList) } 0 (by rfl)⟩

/-- Counterexample for C1: with the version absent (the falsy default),
the `vsix_url` property does not fail with any precondition error — it
issues one metadata request (so it is not a pure, network-free
function) and returns the URL built from the fetched version. -/
theorem vsix_url_no_precondition_error_cex :
    vsix_url respGood sampleExt
      = (Except.ok (vsixUrlTemplate "acme".toList "widget".toList "1.2.3".toList,
          resolvedExt), 1) := by
  rfl

/-- Claim C1 (amended): for every identity whose version is absent
(falsy), the `vsix_url` property raises no precondition error; it is
impure: it issues exactly one metadata request via `query_version`,
fails only when that query fails, and on success returns the URL built
from the freshly fetched version stored in the updated identity. -/
theorem vsix_url_absent_version_queries (resp : MarketplaceResponse) (self : Extension)
    (h : truthyOpt self.version = false) :
    (vsix_url resp self).2 = 1
    ∧ (∀ e, (vsix_url resp self).1 = Except.error e →
        query_version resp self true = Except.error e)
    ∧ (∀ url s, (vsix_url resp self).1 = Except.ok (url, s) →
        query_version resp self true = Except.ok (s.version, s)
        ∧ url = vsixUrlString s) := by
  have hv : vsix_url resp self
      = (match query_version resp self true with
          | Except.error e => (Except.error e, 1)
          | Except.ok (_, s) => (Except.ok (vsixUrlString s, s), 1)) := by
    unfold vsix_url
    rw [h]
    rfl
  rcases hq : query_version resp self true with e | p
  · have hv2 : vsix_url resp self = (Except.error e, 1) := by rw [hv, hq]
    refine ⟨by rw [hv2], ?_, ?_⟩
    · intro e' he'
      rw [hv2] at he'
      simpa using he'
    · intro url s hs
      rw [hv2] at hs
      simp at hs
  · obtain ⟨v, s⟩ := p
    have hv2 : vsix_url resp self = (Except.ok (vsixUrlString s, s), 1) := by rw [hv, hq]
    have hstate := query_version_ok_state resp self true v s hq
    have hv3 : s.version = v := by rw [hstate]
    refine ⟨by rw [hv2], ?_, ?_⟩
    · intro e' he'
      rw [hv2] at he'
      simp at he'
    · intro url s' hs
      rw [hv2] at hs
      injection hs with hs0
      injection hs0 with hs1 hs2
      constructor
      · rw [← hs2, hv3]
      · rw [← hs2, ← hs1]

/-- Witness for the amended C1 at `sampleExt` (version absent) against
`respGood`. -/
theorem vsix_url_absent_version_queries_w :
    (vsix_url respGood sampleExt).2 = 1
    ∧ query_version respGood sampleExt true
      = Except.ok (resolvedExt.version, resolvedExt)
    ∧ vsixUrlTemplate "acme".toList "widget".toList "1.2.3".toList
      = vsixUrlString resolvedExt := by
  have h := vsix_url_absent_version_queries respGood sampleExt rfl
  have h3 := h.2.2
    (vsixUrlTemplate "acme".toList "widget".toList "1.2.3".toList) resolvedExt (by rfl)
  exact ⟨h.1, h3.1, h3.2⟩

/-- Counterexample for C3: on a successful resolution, the identity
state after `query_version` differs from the caller's original
identity — the version field has been overwritten in place, and the
method returned the version value rather than a fresh identity. -/
theorem query_version_mutates_cex :
    query_version respGood sampleExt true
      = Except.ok (some (Json.str "1.2.3".toList), resolvedExt)
    ∧ resolvedExt ≠ sampleExt :=
  ⟨rfl, by decide⟩

/-- Claim C3 (amended): `query_version` does not return a fresh
identity while leaving the caller's record untouched — on success it
returns the fetched version value together with the caller's identity
whose `version` field has been overwritten in place (publisher and
name unchanged). -/
theorem query_version_updates_in_place (resp : MarketplaceResponse) (self : Extension)
    (u : Bool) (v : Option Json) (s : Extension)
    (h : query_version resp self u = Except.ok (v, s)) :
    s.publisher = self.publisher ∧ s.name = self.name ∧ s.version = v
    ∧ s = { self with version := v } := by
  have hs := query_version_ok_state resp self u v s h
  refine ⟨?_, ?_, ?_, hs⟩ <;> rw [hs]

/-- Witness for the amended C3 at `sampleExt` against `respGood`. -/
theorem query_version_updates_in_place_w :
    resolvedExt.publisher = sampleExt.publisher
    ∧ resolvedExt.name = sampleExt.name
    ∧ resolvedExt.version = some (Json.str "1.2.3".toList)
    ∧ resolvedExt = { sampleExt with version := some (Json.str "1.2.3".toList) } :=
  query_version_updates_in_place respGood sampleExt true
    (some (Json.str "1.2.3".toList)) resolvedExt rfl

/-- Counterexample for C4: the metadata-not-found failure and the
network failure raise the same Python exception class
(`RuntimeError`), so the former is not a distinct, separately
catchable error kind relative to the latter. -/
theorem marker_error_same_class_cex :
    errClassOf (query_version respNetFail sampleExt true)
      = some PyErrClass.runtimeError
    ∧ errClassOf (query_version respNoMarker sampleExt true)
      = some PyErrClass.runtimeError :=
  ⟨rfl, rfl⟩

/-- Claim C4 (amended): for every successful response whose HTML has no
marker element, `query_version` fails by raising a `RuntimeError` with
the `jiContent` message; that exception has the same class as the
`RuntimeError` raised for a failed request (hence is not separately
catchable by exception kind), though it is distinct from JSON-parse
failures. -/
theorem missing_marker_runtime_error (resp : MarketplaceResponse) (self : Extension)
    (u : Bool) (hok : resp.ok = true) (hm : resp.marker = none) :
    query_version resp self u = Except.error (PyErr.runtimeError noJiContentMsg)
    ∧ (PyErr.runtimeError noJiContentMsg).cls
      = (PyErr.runtimeError (requestFailedMsg (marketplace_url self) resp.reason)).cls
    ∧ (PyErr.runtimeError noJiContentMsg).cls ≠ PyErr.jsonDecodeError.cls := by
  refine ⟨?_, rfl, by decide⟩
  unfold query_version
  rw [hok, hm]
  rfl

/-- Witness for the amended C4 at `respNoMarker`. -/
theorem missing_marker_runtime_error_w :
    query_version respNoMarker sampleExt true
      = Except.error (PyErr.runtimeError noJiContentMsg)
    ∧ (PyErr.runtimeError noJiContentMsg).cls
      = (PyErr.runtimeError (requestFailedMsg (marketplace_url sampleExt)
          respNoMarker.reason)).cls
    ∧ (PyErr.runtimeError noJiContentMsg).cls ≠ PyErr.jsonDecodeError.cls :=
  missing_marker_runtime_error respNoMarker sampleExt true rfl rfl

/-- Claim C10: the `update` parameter of `query_version` has no effect
on its behavior: the call with `update := False` is identical to the
call with `update := True`, and on success it still overwrites the
identity's version field with the fetched value. -/
theorem query_version_update_flag_no_effect (resp : MarketplaceResponse)
    (self : Extension) :
    query_version resp self false = query_version resp self true
    ∧ (∀ v s, query_version resp self false = Except.ok (v, s) →
        s = { self with version := v } ∧ s.version = v) := by
  refine ⟨rfl, ?_⟩
  intro v s h
  have hs := query_version_ok_state resp self false v s h
  exact ⟨hs, by rw [hs]⟩

/-- Witness for C10 at `sampleExt` against `respGood`. -/
theorem query_version_update_flag_no_effect_w :
    query_version respGood sampleExt false = query_version respGood sampleExt true
    ∧ resolvedExt = { sampleExt with version := some (Json.str "1.2.3".toList) }
    ∧ resolvedExt.version = some (Json.str "1.2.3".toList) := by
  have h := query_version_update_flag_no_effect respGood sampleExt
  have h2 := h.2 (some (Json.str "1.2.3".toList)) resolvedExt rfl
  exact ⟨h.1, h2.1, h2.2⟩

/-- Counterexample for C5: a `Resources` object lacking the `Version`
field does not make `query_version` fail with any error — it silently
stores `None` into `version` and returns successfully. -/
theorem absent_version_silent_cex :
    query_version respNoVersion sampleExt true
      = Except.ok (none, noneVersionExt) :=
  rfl

/-- Claim C5 (amended): when the marker is present but its text is
malformed JSON, `query_version` raises `JSONDecodeError`; when the
JSON object lacks the `Resources` key it raises `KeyError`; but a
`Resources` object lacking the `Version` field is not an error — the
version is silently set to `None` (a silently unset version) and the
call succeeds. -/
theorem metadata_format_errors (self : Extension) (u : Bool) (r : PyStr) :
    query_version { ok := true, reason := r, marker := some JsonParse.malformed } self u
      = Except.error PyErr.jsonDecodeError
    ∧ (∀ fs, jsonLookup resourcesKey fs = none →
        query_version
            { ok := true, reason := r, marker := some (JsonParse.value (Json.obj fs)) }
            self u
          = Except.error (PyErr.keyError resourcesKey))
    ∧ (∀ fs rs, jsonLookup resourcesKey fs = some (Json.obj rs) →
        jsonLookup versionKey rs = none →
        query_version
            { ok := true, reason := r, marker := some (JsonParse.value (Json.obj fs)) }
            self u
          = Except.ok (none, { self with version := none })) := by
  refine ⟨rfl, ?_, ?_⟩
  · intro fs hfs
    have hgi : getItem (Json.obj fs) resourcesKey
        = Except.error (PyErr.keyError resourcesKey) := by
      show (match jsonLookup resourcesKey fs with
        | some v => Except.ok v
        | none => Except.error (PyErr.keyError resourcesKey)) = _
      rw [hfs]
    show (match getItem (Json.obj fs) resourcesKey with
      | Except.error e => Except.error e
      | Except.ok resources =>
          match dictGet resources publisherNameKey with
          | Except.error e => Except.error e
          | Except.ok _p =>
              match dictGet resources extensionNameKey with
              | Except.error e => Except.error e
              | Except.ok _x =>
                  match dictGet resources versionKey with
                  | Except.error e => Except.error e
                  | Except.ok version =>
                      Except.ok (version, { self with version := version })) = _
    rw [hgi]
  · intro fs rs hfs hver
    have hgi : getItem (Json.obj fs) resourcesKey = Except.ok (Json.obj rs) := by
      show (match jsonLookup resourcesKey fs with
        | some v => Except.ok v
        | none => Except.error (PyErr.keyError resourcesKey)) = _
      rw [hfs]
    show (match getItem (Json.obj fs) resourcesKey with
      | Except.error e => Except.error e
      | Except.ok resources =>
          match dictGet resources publisherNameKey with
          | Except.error e => Except.error e
          | Except.ok _p =>
              match dictGet resources extensionNameKey with
              | Except.error e => Except.error e
              | Except.ok _x =>
                  match dictGet resources versionKey with
                  | Except.error e => Except.error e
                  | Except.ok version =>
                      Except.ok (version, { self with version := version })) = _
    rw [hgi]
    show (match dictGet (Json.obj rs) versionKey with
      | Except.error e => Except.error e
      | Except.ok version =>
          Except.ok (version, { self with version := version })) = _
    have hdg : dictGet (Json.obj rs) versionKey = Except.ok none := by
      show Except.ok (jsonLookup versionKey rs) = _
      rw [hver]
    rw [hdg]

/-- Witness for the amended C5: the malformed-marker response, the
response whose top-level object has no `Resources`, and the response
whose `Resources` object has no `Version`. -/
theorem metadata_format_errors_w :
    query_version respMalformed sampleExt true = Except.error PyErr.jsonDecodeError
    ∧ query_version respEmptyObj sampleExt true
      = Except.error (PyErr.keyError resourcesKey)
    ∧ query_version respNoVersion sampleExt true
      = Except.ok (none, { sampleExt with version := none }) := by
  have h := metadata_format_errors sampleExt true []
  refine ⟨h.1, h.2.1 JFields.nil rfl, ?_⟩
  have h3 := h.2.2 (JFields.cons resourcesKey (Json.obj JFields.nil) JFields.nil)
    JFields.nil rfl rfl
  exact h3
